import Mathlib

/-!
Verification of the client reconciliation/sync core of the flock-control
repository and its server collaborators, as a shallow embedding in Lean.

Sources embedded:
- `client/src/components/count-history.tsx` (merged, deduplicated, sorted view)
- the client store module (`src/unnamed/part_031`): count records, pending-upload
  queue, sync engine, connectivity state
- `server/routes.ts` (`/api/health`, `/api/analyze`, `DELETE /api/counts`)
- `server/storage.ts` (`DatabaseStorage.deleteCounts`)
- `server/achievements.ts` (`AchievementService.checkAchievements`)

JavaScript numbers that hold identifiers or times are embedded as `Nat`/`Int`
(ids are database serials / epoch milliseconds; no overflow or float rounding
is involved at these magnitudes). `crypto.randomUUID`, whose only relied-upon
property is freshness, is embedded as a counter drawn from the store state.
-/

namespace FlockControl

/-- An id is either a locally generated opaque string (guest/offline mode) or a
server-assigned number, exactly the `string | number` union in the source.
JavaScript strict equality / `Map` key equality never identifies a string with
a number, which the derived `DecidableEq` mirrors. -/
inductive CId where
  | str : String → CId
  | num : Nat → CId
deriving DecidableEq

/-- The string form of an id (`id.toString()`) as the store compares ids in
`updateCount`: a string id is itself, a numeric id is its decimal form. -/
def CId.toStr : CId → String
  | CId.str s => s
  | CId.num n => toString n

/-- A count record (`Count` in `shared/schema.ts` / the client store).
`timestamp` is epoch milliseconds; `none` models a null/absent timestamp. -/
structure Count where
  id : CId
  userId : Int
  count : Int
  imageUrl : Option String
  timestamp : Option Int
  breed : Option String
  confidence : Option Int
  labels : Option (List String)
deriving DecidableEq

/-- The sort key of `count-history.tsx`:
`count.timestamp ? new Date(count.timestamp).getTime() : 0`. -/
def tsKey (c : Count) : Int :=
  match c.timestamp with
  | some t => t
  | none => 0

/-! ## The merged view of `CountHistory` (`count-history.tsx`, `allCounts`)

`new Map(list.map(c => [c.id, c]))` keyed by id: the first occurrence of a key
fixes its position, a later occurrence overwrites the stored value in place.
`mapInsert` is one `Map.set` step; `dedupeById` folds it over the list. -/

/-- One `Map.set(c.id, c)` step on the association list of values. -/
def mapInsert (acc : List Count) (c : Count) : List Count :=
  if c.id ∈ acc.map Count.id then
    acc.map (fun x => if x.id = c.id then c else x)
  else
    acc ++ [c]

/-- Embedding of `Array.from(new Map(l.map(c => [c.id, c])).values())`. -/
def dedupeById (l : List Count) : List Count :=
  l.foldl mapInsert []

/-- The ordering realised by the comparator `(a, b) => timeB - timeA`:
`a` may come before `b` iff `tsKey b ≤ tsKey a`. -/
def tsGE (a b : Count) : Prop :=
  tsKey b ≤ tsKey a

instance : DecidableRel tsGE := fun a b =>
  inferInstanceAs (Decidable (tsKey b ≤ tsKey a))

instance : IsTotal Count tsGE :=
  ⟨fun a b => le_total (tsKey b) (tsKey a)⟩

instance : IsTrans Count tsGE :=
  ⟨fun _ _ _ hab hbc => le_trans hbc hab⟩

/-- The merged view `allCounts` of `CountHistory`: concatenate local and server
records, deduplicate by id with the later (server) copy winning, then sort
descending by timestamp. `Array.prototype.sort` with a consistent comparator
produces a permutation sorted for the comparator; it is embedded as insertion
sort for `tsGE`. -/
def allCounts (locals servers : List Count) : List Count :=
  List.insertionSort tsGE (dedupeById (locals ++ servers))

/-! ## The client store (`src/unnamed/part_031`) -/

/-- A pending upload awaiting analysis. `id` is generated by
`crypto.randomUUID()`; its only property the store relies on is freshness, so
it is embedded as a `Nat` drawn from the fresh-id counter of the store. -/
structure PendingUpload where
  id : Nat
  image : String
  timestamp : Int
  retryCount : Nat
deriving DecidableEq

/-- The connection signal triple kept by the store. -/
structure ConnectionState where
  isOnline : Bool
  isDatabaseConnected : Bool
  lastError : Option String
deriving DecidableEq

/-- The persisted client store state. `nextUploadId` is the fresh-id supply
standing in for `crypto.randomUUID()`. -/
structure StoreState where
  counts : List Count
  pendingUploads : List PendingUpload
  connection : ConnectionState
  isSyncing : Bool
  nextUploadId : Nat
deriving DecidableEq

/-- The initial state of the store (`counts: [], pendingUploads: [], connection:
{ isOnline: true, isDatabaseConnected: true }, isSyncing: false`). -/
def initialState : StoreState :=
  { counts := []
    pendingUploads := []
    connection := { isOnline := true, isDatabaseConnected := true, lastError := none }
    isSyncing := false
    nextUploadId := 0 }

/-- The `Partial<Count>` update shape: each field optionally present. -/
structure CountUpdates where
  id : Option CId := none
  userId : Option Int := none
  count : Option Int := none
  imageUrl : Option (Option String) := none
  timestamp : Option (Option Int) := none
  breed : Option (Option String) := none
  confidence : Option (Option Int) := none
  labels : Option (Option (List String)) := none
deriving DecidableEq

/-- The shallow merge `{ ...count, ...updates }`. -/
def applyUpdates (c : Count) (u : CountUpdates) : Count :=
  { id := u.id.getD c.id
    userId := u.userId.getD c.userId
    count := u.count.getD c.count
    imageUrl := u.imageUrl.getD c.imageUrl
    timestamp := u.timestamp.getD c.timestamp
    breed := u.breed.getD c.breed
    confidence := u.confidence.getD c.confidence
    labels := u.labels.getD c.labels }

/-- The `addCount` action: prepend the record. -/
def addCount (c : Count) (st : StoreState) : StoreState :=
  { st with counts := c :: st.counts }

/-- The `updateCount` action on the record list: match by stringified id
(`count.id.toString() === id.toString()`), shallow-merge on a match. -/
def updateCountList (i : CId) (u : CountUpdates) (l : List Count) : List Count :=
  l.map (fun c => if c.id.toStr = i.toStr then applyUpdates c u else c)

/-- The `updateCount` store action. -/
def updateCount (i : CId) (u : CountUpdates) (st : StoreState) : StoreState :=
  { st with counts := updateCountList i u st.counts }

/-- The `deleteCounts` action on the record list: keep records whose id is not in `ids`
under strict equality (`!ids.includes(count.id)`). -/
def deleteCountsList (ids : List CId) (l : List Count) : List Count :=
  l.filter (fun c => decide (c.id ∉ ids))

/-- The `deleteCounts` store action. -/
def deleteCounts (ids : List CId) (st : StoreState) : StoreState :=
  { st with counts := deleteCountsList ids st.counts }

/-- The `queueForUpload` action: append a fresh entry with `retryCount: 0`.
(The warning toast it may show has no state effect.) -/
def queueForUpload (image : String) (now : Int) (st : StoreState) : StoreState :=
  { st with
    pendingUploads := st.pendingUploads ++
      [{ id := st.nextUploadId, image := image, timestamp := now, retryCount := 0 }]
    nextUploadId := st.nextUploadId + 1 }

/-- The `removePendingUpload` action: filter the queue by id. -/
def removePendingUpload (i : Nat) (st : StoreState) : StoreState :=
  { st with pendingUploads := st.pendingUploads.filter (fun u => decide (u.id ≠ i)) }

/-- The `clearCounts` action: empty both the record list and the queue. -/
def clearCounts (st : StoreState) : StoreState :=
  { st with counts := [], pendingUploads := [] }

/-- The `importCounts` action: wholesale replacement of the record list. -/
def importCounts (l : List Count) (st : StoreState) : StoreState :=
  { st with counts := l }

/-- A sequence of `queueForUpload` calls, one per `(image, timestamp)` pair. -/
def enqueueAll (items : List (String × Int)) (st : StoreState) : StoreState :=
  items.foldl (fun s it => queueForUpload it.1 it.2 s) st

/-- The per-item completion handler of `syncPendingUploads`. `outcome u.id =
some c` models the analyze request for item `u` succeeding with record `c`
(`state.addCount(data.count); state.removePendingUpload(upload.id)`); `none`
models a failure (bump the `retryCount` of that item in place, leave it queued).
Each handler commits against the state current at completion time; the
handlers of distinct queue items commute on the queue, and the fold applies
them in snapshot order as one serialisation of the event loop. -/
def syncStep (outcome : Nat → Option Count) (st : StoreState) (u : PendingUpload) : StoreState :=
  match outcome u.id with
  | some c => removePendingUpload u.id (addCount c st)
  | none =>
      { st with
        pendingUploads := st.pendingUploads.map (fun p =>
          if p.id = u.id then { p with retryCount := p.retryCount + 1 } else p) }

/-- The `syncPendingUploads` pass: return unless online, database-connected, a nonempty
queue, and no pass in progress; otherwise set the `isSyncing` flag, process a
snapshot of the queue, and clear the flag (`finally`). -/
def syncPendingUploads (outcome : Nat → Option Count) (st : StoreState) : StoreState :=
  if st.connection.isOnline = false ∨ st.connection.isDatabaseConnected = false ∨
      st.pendingUploads = [] ∨ st.isSyncing = true then
    st
  else
    let st1 := { st with isSyncing := true }
    let st2 := st.pendingUploads.foldl (syncStep outcome) st1
    { st2 with isSyncing := false }

/-- The queue after `N` enqueues from the initial state. -/
def builtQueue (items : List (String × Int)) : List PendingUpload :=
  (enqueueAll items initialState).pendingUploads

/-- The queue after one sync pass over `builtQueue items`. -/
def syncedQueue (items : List (String × Int)) (outcome : Nat → Option Count) :
    List PendingUpload :=
  (syncPendingUploads outcome (enqueueAll items initialState)).pendingUploads

/-! ## The connectivity prober (`setOnline` in `src/unnamed/part_031`) -/

/-- The observable outcome of a `fetch` of the health route followed by
`response.json()`: the fetch may reject (network failure or timeout), the body
may fail to parse, or a response arrives with an HTTP-ok bit, a `database`
field and an optional `error` field. -/
inductive ProbeResult where
  | netFail : String → ProbeResult
  | badBody : Bool → String → ProbeResult
  | response : Bool → String → Option String → ProbeResult
deriving DecidableEq

/-- The response the `/api/health` route of the repository produces (`routes.ts`):
HTTP 200 with `database: "connected"` when the probe query succeeds, HTTP 503
with `database: "disconnected"` and an `error` string otherwise. -/
def healthResponse (dbOk : Bool) (msg : String) : ProbeResult :=
  if dbOk then ProbeResult.response true "connected" none
  else ProbeResult.response false "disconnected" (some msg)

/-- Probe outcomes possible against the health endpoint of the repository itself:
a network failure, an unparsable body, or a response the route can emit. -/
def serverProbe : ProbeResult → Prop
  | ProbeResult.netFail _ => True
  | ProbeResult.badBody _ _ => True
  | ProbeResult.response ok database err =>
      (ok = true ∧ database = "connected" ∧ err = none) ∨
      (ok = false ∧ database = "disconnected" ∧ ∃ m, err = some m)

/-- The failure modes of the probe: network failure/timeout, unparsable body,
or the non-OK (503, database down) endpoint response. -/
def failureProbe : ProbeResult → Prop
  | ProbeResult.netFail _ => True
  | ProbeResult.badBody _ _ => True
  | p => ∃ m, p = healthResponse false m

/-- The connection state written on the success path of `setOnline(true)`:
`isOnline: response.ok`, `isDatabaseConnected` from the `database` body field,
`lastError: isDatabaseConnected ? undefined : data.error`. -/
def connAfterResponse (conn : ConnectionState) (ok : Bool) (database : String)
    (err : Option String) : ConnectionState :=
  { conn with
    isOnline := ok
    isDatabaseConnected := decide (database = "connected")
    lastError := if database = "connected" then none else err }

/-- The `try` block of `setOnline(true)`: `fetch` and `response.json()` may
throw (modelled as `Except.error` carrying the message); otherwise the
connection state is written and, when healthy with a nonempty queue, a sync
pass is triggered. -/
def healthTry (outcome : Nat → Option Count) (probe : ProbeResult)
    (st : StoreState) : Except String StoreState :=
  match probe with
  | ProbeResult.netFail msg => Except.error msg
  | ProbeResult.badBody _ msg => Except.error msg
  | ProbeResult.response ok database err =>
      let st1 := { st with connection := connAfterResponse st.connection ok database err }
      if ok = true ∧ database = "connected" ∧ st1.pendingUploads ≠ [] then
        Except.ok (syncPendingUploads outcome st1)
      else
        Except.ok st1

/-- The `setOnline` action with its `try`/`catch` structure made explicit: the catch
handler turns any thrown error into the collapsed offline state with
`lastError` set; `setOnline(false)` short-circuits both signals to false. -/
def setOnlineE (outcome : Nat → Option Count) (status : Bool) (probe : ProbeResult)
    (st : StoreState) : Except String StoreState :=
  if status then
    match healthTry outcome probe st with
    | Except.ok st2 => Except.ok st2
    | Except.error msg =>
        Except.ok { st with connection :=
          { st.connection with isOnline := false, isDatabaseConnected := false,
                               lastError := some msg } }
  else
    Except.ok { st with connection :=
      { st.connection with isOnline := false, isDatabaseConnected := false } }

/-- The `setOnline` action as a state transformer (it is proved below to never be in the
`Except.error` case). -/
def setOnline (outcome : Nat → Option Count) (status : Bool) (probe : ProbeResult)
    (st : StoreState) : StoreState :=
  match setOnlineE outcome status probe st with
  | Except.ok st2 => st2
  | Except.error _ => st

/-- States of the store reachable from the initial state through its actions,
with `setOnline` probing the health endpoint of the repository itself. -/
inductive Reachable : StoreState → Prop where
  | init : Reachable initialState
  | stepAddCount (c : Count) {st : StoreState} :
      Reachable st → Reachable (addCount c st)
  | stepUpdateCount (i : CId) (u : CountUpdates) {st : StoreState} :
      Reachable st → Reachable (updateCount i u st)
  | stepDeleteCounts (ids : List CId) {st : StoreState} :
      Reachable st → Reachable (deleteCounts ids st)
  | stepQueueForUpload (image : String) (now : Int) {st : StoreState} :
      Reachable st → Reachable (queueForUpload image now st)
  | stepRemovePendingUpload (i : Nat) {st : StoreState} :
      Reachable st → Reachable (removePendingUpload i st)
  | stepClearCounts {st : StoreState} :
      Reachable st → Reachable (clearCounts st)
  | stepImportCounts (l : List Count) {st : StoreState} :
      Reachable st → Reachable (importCounts l st)
  | stepSync (outcome : Nat → Option Count) {st : StoreState} :
      Reachable st → Reachable (syncPendingUploads outcome st)
  | stepSetOnline (outcome : Nat → Option Count) (status : Bool)
      (probe : ProbeResult) {st : StoreState} :
      Reachable st → serverProbe probe → Reachable (setOnline outcome status probe st)

/-! ## The achievement engine (`server/achievements.ts`) -/

/-- An achievement row: a statistic kind (`type`) and a numeric threshold. -/
structure Achievement where
  id : Nat
  name : String
  description : String
  icon : String
  requirement : Int
  type : String
deriving DecidableEq

/-- The aggregate statistics `checkAchievements` computes for a user. -/
structure UserStats where
  totalCounts : Int
  uniqueBreeds : Int
  maxSingleCount : Int
  uniqueDays : Int
  consecutiveDays : Int
deriving DecidableEq

/-- The `switch (achievement.type)` of `checkAchievements`: the matching
statistic meets-or-exceeds the requirement; an unknown kind is never earned. -/
def earnedBy (stats : UserStats) (a : Achievement) : Bool :=
  if a.type = "total_counts" then decide (a.requirement ≤ stats.totalCounts)
  else if a.type = "unique_breeds" then decide (a.requirement ≤ stats.uniqueBreeds)
  else if a.type = "single_count" then decide (a.requirement ≤ stats.maxSingleCount)
  else if a.type = "unique_days" then decide (a.requirement ≤ stats.uniqueDays)
  else if a.type = "consecutive_days" then decide (a.requirement ≤ stats.consecutiveDays)
  else false

/-- One iteration of the `for (const achievement of allAchievements)` loop:
skip when the id is in the earned set snapshot (`achievedIds.has(...)`),
otherwise insert a `userAchievements` row and report the achievement when
earned. The accumulator is (inserted ids, `newAchievements`). -/
def checkStep (stats : UserStats) (achieved : List Nat)
    (acc : List Nat × List Achievement) (a : Achievement) : List Nat × List Achievement :=
  if a.id ∈ achieved then acc
  else if earnedBy stats a then (acc.1 ++ [a.id], acc.2 ++ [a])
  else acc

/-- The `checkAchievements` evaluation on an already-computed statistics
snapshot: `achieved` is the earned-achievement id set read at the start of the call. Returns
the ids inserted into `userAchievements` and the returned `newAchievements`. -/
def checkAchievements (stats : UserStats) (allAchievements : List Achievement)
    (achieved : List Nat) : List Nat × List Achievement :=
  allAchievements.foldl (checkStep stats achieved) ([], [])

/-! ## The server count service (`server/storage.ts`, `server/routes.ts`) -/

/-- A row of the `counts` table. -/
structure CountRow where
  id : Nat
  userId : Nat
  count : Int
  imageUrl : Option String
  timestamp : Option Int
  breed : Option String
  confidence : Option Int
  labels : Option (List String)
deriving DecidableEq

/-- The `DatabaseStorage.deleteCounts` query: `DELETE FROM counts WHERE userId = $user
AND id IN $countIds` — keep exactly the rows not matching both conditions. -/
def deleteCountsDb (userId : Nat) (countIds : List Nat) (rows : List CountRow) :
    List CountRow :=
  rows.filter (fun r => decide (¬(r.userId = userId ∧ r.id ∈ countIds)))

/-- What `DELETE /api/counts` sends back. -/
inductive DeleteResult where
  | okStatus : DeleteResult
  | badRequest : String → DeleteResult
  | serverError : String → DeleteResult
deriving DecidableEq

/-- The `DELETE /api/counts` handler for an authenticated user whose body
passed the `Array.isArray` check: delete scoped to the caller, then
`res.sendStatus(200)`. -/
def deleteCountsRoute (userId : Nat) (countIds : List Nat) (rows : List CountRow) :
    List CountRow × DeleteResult :=
  (deleteCountsDb userId countIds rows, DeleteResult.okStatus)

/-! ## The analyze endpoint (`POST /api/analyze` in `server/routes.ts`) -/

/-- The model reply after the field validation in the handler: `count`, `breed`,
`confidence` and `labels` are present with the right types; the remaining
fields are optional. -/
structure AnalysisResult where
  count : Int
  breed : String
  additionalBreeds : Option (List String)
  confidence : Int
  ageGroup : Option String
  healthStatus : Option String
  labels : List String
deriving DecidableEq

/-- The label augmentation in the handler: push `additional-breed:*` labels
when `additionalBreeds?.length` is truthy, then `age:*` when `ageGroup` is
truthy, then `health:*` when `healthStatus` is truthy (the empty string is
falsy in JavaScript). -/
def augmentLabels (r : AnalysisResult) : List String :=
  r.labels ++
    (match r.additionalBreeds with
     | some bs => if bs.length ≠ 0 then bs.map (fun b => "additional-breed:" ++ b) else []
     | none => []) ++
    (match r.ageGroup with
     | some g => if g ≠ "" then ["age:" ++ g] else []
     | none => []) ++
    (match r.healthStatus with
     | some h => if h ≠ "" then ["health:" ++ h] else []
     | none => [])

/-- The `APIError` message used for a missing/unparsable/invalid model reply
(stands for the not-a-chicken message string of `routes.ts`). -/
def notChickenMsg : String := "NOT_CHICKEN"

/-- A server-side persistence effect of a request. -/
inductive ServerEffect where
  | insertCount : CountRow → ServerEffect
  | insertUserAchievement : Nat → Nat → ServerEffect
deriving DecidableEq

/-- The count record in the analyze response for an authenticated user, as
read back from the inserted row. -/
def rowToCount (r : CountRow) : Count :=
  { id := CId.num r.id
    userId := (r.userId : Int)
    count := r.count
    imageUrl := r.imageUrl
    timestamp := r.timestamp
    breed := r.breed
    confidence := r.confidence
    labels := r.labels }

/-- The success body `{ count, newAchievements? }` of `POST /api/analyze`. -/
structure AnalyzeOk where
  count : Count
  newAchievements : Option (List Achievement)
deriving DecidableEq

/-- The response of `POST /api/analyze`. -/
inductive AnalyzeResponse where
  | ok : AnalyzeOk → AnalyzeResponse
  | apiError : Nat → String → AnalyzeResponse
deriving DecidableEq

/-- The `POST /api/analyze` handler. `auth` is the authenticated user id, if
any; `modelOutput` is the parsed and validated model reply (`none` when the
content was missing, unparsable, or failed validation); `freshId`/`now` are the
database-assigned id and timestamp; `guestId` is the `crypto.randomUUID()`
value of the guest branch; `stats`/`allAchievements`/`achieved` are what the
subsequent `checkAchievements` call reads. Returns the persistence effects and
the response. -/
def analyzeHandler (auth : Option Nat) (image : String)
    (modelOutput : Option AnalysisResult) (freshId : Nat) (guestId : CId) (now : Int)
    (stats : UserStats) (allAchievements : List Achievement) (achieved : List Nat) :
    List ServerEffect × AnalyzeResponse :=
  match modelOutput with
  | none => ([], AnalyzeResponse.apiError 400 notChickenMsg)
  | some r =>
      let labels := augmentLabels r
      match auth with
      | some uid =>
          let row : CountRow :=
            { id := freshId, userId := uid, count := r.count, imageUrl := some image,
              timestamp := some now, breed := some r.breed,
              confidence := some r.confidence, labels := some labels }
          let checked := checkAchievements stats allAchievements achieved
          (ServerEffect.insertCount row ::
             checked.1.map (fun aid => ServerEffect.insertUserAchievement uid aid),
           AnalyzeResponse.ok { count := rowToCount row, newAchievements := some checked.2 })
      | none =>
          ([], AnalyzeResponse.ok
            { count :=
                { id := guestId, userId := 0, count := r.count, imageUrl := some image,
                  timestamp := some now, breed := some r.breed,
                  confidence := some r.confidence,
                  labels := some (labels ++ ["guest-mode"]) }
              newAchievements := none })

/-! ## Derived specification helpers and concrete fixtures -/

/-- The queue a completed sync pass leaves behind, as a specification: drop the
succeeded items, bump the `retryCount` of the failed ones. Proved below to be
what the fold of `syncStep` computes. -/
def syncResidue (outcome : Nat → Option Count) (q : List PendingUpload) :
    List PendingUpload :=
  q.filterMap (fun u =>
    if (outcome u.id).isSome then none
    else some { u with retryCount := u.retryCount + 1 })

/-- A locally cached copy of record 5. -/
def cL5 : Count :=
  { id := CId.num 5, userId := 0, count := 3, imageUrl := none, timestamp := some 100,
    breed := none, confidence := none, labels := none }

/-- The server copy of record 5 (same id, different payload). -/
def cS5 : Count :=
  { id := CId.num 5, userId := 1, count := 4, imageUrl := none, timestamp := some 200,
    breed := some "leghorn", confidence := some 90, labels := some ["flock"] }

/-- A record with timestamp 5. -/
def cA : Count :=
  { id := CId.num 1, userId := 1, count := 1, imageUrl := none, timestamp := some 5,
    breed := none, confidence := none, labels := none }

/-- A distinct record with the same timestamp 5. -/
def cB : Count :=
  { id := CId.num 2, userId := 1, count := 2, imageUrl := none, timestamp := some 5,
    breed := none, confidence := none, labels := none }

/-- An analyze outcome where every request fails. -/
def outFail : Nat → Option Count := fun _ => none

/-- An analyze outcome where only the item with id 0 succeeds. -/
def outcome0 : Nat → Option Count := fun i => if i = 0 then some cS5 else none

/-- Two images to enqueue. -/
def items2 : List (String × Int) := [("imgA", 0), ("imgB", 1)]

/-- A record with the numeric id 5. -/
def recN5 : Count :=
  { id := CId.num 5, userId := 0, count := 1, imageUrl := none, timestamp := none,
    breed := none, confidence := none, labels := none }

/-- A partial update that changes the count. -/
def upd0 : CountUpdates := { count := some 9 }

/-- The row of user 1 with id 5. -/
def rowA5 : CountRow :=
  { id := 5, userId := 1, count := 1, imageUrl := none, timestamp := none,
    breed := none, confidence := none, labels := none }

/-- The row of user 2 with id 7. -/
def rowB7 : CountRow :=
  { id := 7, userId := 2, count := 2, imageUrl := none, timestamp := none,
    breed := none, confidence := none, labels := none }

/-- A probe that fails at the network level. -/
def probeFail : ProbeResult := ProbeResult.netFail "network down"

/-! # Theorems

## The merged view: deduplication and ordering -/

theorem keys_mapInsert_mem {acc : List Count} {c : Count}
    (h : c.id ∈ acc.map Count.id) :
    (mapInsert acc c).map Count.id = acc.map Count.id := by
  unfold mapInsert
  rw [if_pos h, List.map_map]
  apply List.map_congr_left
  intro x _
  by_cases hid : x.id = c.id
  · simp [Function.comp, hid]
  · simp [Function.comp, hid]

theorem keys_mapInsert_not_mem {acc : List Count} {c : Count}
    (h : c.id ∉ acc.map Count.id) :
    (mapInsert acc c).map Count.id = acc.map Count.id ++ [c.id] := by
  unfold mapInsert
  rw [if_neg h, List.map_append]
  rfl

theorem mem_keys_mapInsert {acc : List Count} {c : Count} (i : CId) :
    i ∈ (mapInsert acc c).map Count.id ↔ i ∈ acc.map Count.id ∨ i = c.id := by
  by_cases h : c.id ∈ acc.map Count.id
  · rw [keys_mapInsert_mem h]
    constructor
    · exact Or.inl
    · rintro (h2 | rfl)
      · exact h2
      · exact h
  · rw [keys_mapInsert_not_mem h]
    simp

theorem nodup_keys_mapInsert {acc : List Count} {c : Count}
    (h : (acc.map Count.id).Nodup) : ((mapInsert acc c).map Count.id).Nodup := by
  by_cases hm : c.id ∈ acc.map Count.id
  · rw [keys_mapInsert_mem hm]
    exact h
  · rw [keys_mapInsert_not_mem hm]
    simp [List.nodup_append, h, hm]

theorem mem_keys_foldl :
    ∀ (l acc : List Count) (i : CId),
      i ∈ ((l.foldl mapInsert acc).map Count.id) ↔
        i ∈ acc.map Count.id ∨ i ∈ l.map Count.id
  | [], acc, i => by simp
  | c :: l, acc, i => by
    rw [List.foldl_cons, mem_keys_foldl l (mapInsert acc c) i, mem_keys_mapInsert i]
    simp only [List.map_cons, List.mem_cons]
    tauto

theorem nodup_keys_foldl :
    ∀ (l acc : List Count), (acc.map Count.id).Nodup →
      ((l.foldl mapInsert acc).map Count.id).Nodup
  | [], _, h => h
  | c :: l, acc, h => by
    rw [List.foldl_cons]
    exact nodup_keys_foldl l (mapInsert acc c) (nodup_keys_mapInsert h)

theorem self_mem_mapInsert (acc : List Count) (c : Count) : c ∈ mapInsert acc c := by
  unfold mapInsert
  split
  · rename_i hm
    obtain ⟨y, hy, hyid⟩ := List.mem_map.mp hm
    exact List.mem_map.mpr ⟨y, hy, by simp [hyid]⟩
  · exact List.mem_append.mpr (Or.inr (by simp))

theorem mem_mapInsert_of_ne {acc : List Count} {c y : Count}
    (hc : c ∈ acc) (hne : y.id ≠ c.id) : c ∈ mapInsert acc y := by
  unfold mapInsert
  split
  · refine List.mem_map.mpr ⟨c, hc, ?_⟩
    rw [if_neg (fun h => hne h.symm)]
  · exact List.mem_append.mpr (Or.inl hc)

theorem mem_foldl_of_ne :
    ∀ (l acc : List Count) (c : Count), c ∈ acc → (∀ y ∈ l, y.id ≠ c.id) →
      c ∈ l.foldl mapInsert acc
  | [], _, _, hc, _ => hc
  | y :: l, acc, c, hc, h => by
    rw [List.foldl_cons]
    exact mem_foldl_of_ne l _ c
      (mem_mapInsert_of_ne hc (h y (List.mem_cons_self y l)))
      (fun z hz => h z (List.mem_cons_of_mem _ hz))

theorem countP_eq_count_keys (l : List Count) (i : CId) :
    l.countP (fun c => decide (c.id = i)) = List.count i (l.map Count.id) := by
  rw [List.count_eq_countP, List.countP_map]
  rfl

theorem dedupe_countP (l : List Count) (i : CId) :
    (dedupeById l).countP (fun c => decide (c.id = i)) =
      if i ∈ l.map Count.id then 1 else 0 := by
  rw [countP_eq_count_keys]
  have hnd : ((dedupeById l).map Count.id).Nodup := nodup_keys_foldl l [] (by simp)
  have hmem : i ∈ (dedupeById l).map Count.id ↔ i ∈ l.map Count.id := by
    simpa using mem_keys_foldl l [] i
  by_cases h : i ∈ l.map Count.id
  · rw [if_pos h]
    exact List.count_eq_one_of_mem hnd (hmem.mpr h)
  · rw [if_neg h]
    exact List.count_eq_zero_of_not_mem (fun hc => h (hmem.mp hc))

/-- C1. In the merged view computed by `CountHistory`, every id occurs exactly
once: an id present in the concatenation of the local and server lists appears
exactly once and an absent id does not appear; moreover every record of the
server list (whose ids, being database keys, are distinct) survives into the
merged view, so on an id present in both lists it is the server copy that is
kept. -/
theorem merged_view_dedup (locals servers : List Count)
    (hs : (servers.map Count.id).Nodup) :
    (∀ i : CId, (allCounts locals servers).countP (fun c => decide (c.id = i)) =
        if i ∈ (locals ++ servers).map Count.id then 1 else 0) ∧
    ∀ s ∈ servers, s ∈ allCounts locals servers := by
  constructor
  · intro i
    unfold allCounts
    rw [(List.perm_insertionSort tsGE (dedupeById (locals ++ servers))).countP_eq]
    exact dedupe_countP _ i
  · intro s hsmem
    have hdd : s ∈ dedupeById (locals ++ servers) := by
      obtain ⟨s1, s2, rfl⟩ := List.append_of_mem hsmem
      have hassoc : locals ++ (s1 ++ s :: s2) = (locals ++ s1) ++ s :: s2 := by
        rw [List.append_assoc]
      unfold dedupeById
      rw [hassoc, List.foldl_append, List.foldl_cons]
      have h2 : s.id ∉ s2.map Count.id := by
        rw [List.map_append, List.map_cons] at hs
        exact (List.nodup_cons.mp (List.nodup_append.mp hs).2.1).1
      refine mem_foldl_of_ne s2 _ s (self_mem_mapInsert _ s) ?_
      intro y hy hyid
      exact h2 (hyid ▸ List.mem_map_of_mem Count.id hy)
    unfold allCounts
    exact ((List.perm_insertionSort tsGE _).mem_iff).mpr hdd

/-- Witness for C1 at a concrete pair of lists sharing id 5. -/
theorem merged_view_dedup_check :
    (allCounts [cL5] [cS5]).countP (fun c => decide (c.id = CId.num 5)) = 1 ∧
    cS5 ∈ allCounts [cL5] [cS5] := by
  have h := merged_view_dedup [cL5] [cS5] (by decide)
  refine ⟨?_, h.2 cS5 (by decide)⟩
  rw [h.1 (CId.num 5)]
  decide

/-- C3 counterexample. The comparator `(a, b) => timeB - timeA` only orders the
merged view non-strictly: two distinct records with equal timestamps refute
"sorted strictly descending by timestamp". -/
theorem merged_view_strict_sort_fails :
    ¬ (allCounts [] [cA, cB]).Pairwise (fun a b => tsKey b < tsKey a) := by
  decide

/-- C3 as amended. The merged view is sorted non-increasingly (descending with
ties allowed) by `tsKey`, which maps a missing timestamp to epoch zero — so a
record with a missing timestamp never precedes a record with a later (in
particular, any post-epoch) effective timestamp. -/
theorem merged_view_sorted_desc (locals servers : List Count) :
    List.Sorted tsGE (allCounts locals servers) :=
  List.sorted_insertionSort tsGE (dedupeById (locals ++ servers))

/-! ## The sync engine: queue conservation and non-reentrancy -/

theorem enqueueAll_connection :
    ∀ (items : List (String × Int)) (st : StoreState),
      (enqueueAll items st).connection = st.connection
  | [], _ => rfl
  | it :: items, st => enqueueAll_connection items (queueForUpload it.1 it.2 st)

theorem enqueueAll_isSyncing :
    ∀ (items : List (String × Int)) (st : StoreState),
      (enqueueAll items st).isSyncing = st.isSyncing
  | [], _ => rfl
  | it :: items, st => enqueueAll_isSyncing items (queueForUpload it.1 it.2 st)

theorem enqueueAll_length :
    ∀ (items : List (String × Int)) (st : StoreState),
      (enqueueAll items st).pendingUploads.length =
        st.pendingUploads.length + items.length
  | [], _ => rfl
  | it :: items, st => by
    have h := enqueueAll_length items (queueForUpload it.1 it.2 st)
    have h2 : enqueueAll (it :: items) st = enqueueAll items (queueForUpload it.1 it.2 st) := rfl
    rw [h2, h]
    simp [queueForUpload]
    omega

/-- The fresh-id invariant maintained by enqueuing: every queued id is below
the fresh-id counter, and the queued ids are distinct. -/
def QInv (st : StoreState) : Prop :=
  (∀ u ∈ st.pendingUploads, u.id < st.nextUploadId) ∧
  (st.pendingUploads.map PendingUpload.id).Nodup

theorem queueForUpload_QInv {st : StoreState} (image : String) (now : Int)
    (h : QInv st) : QInv (queueForUpload image now st) := by
  obtain ⟨hb, hn⟩ := h
  constructor
  · intro u hu
    rcases List.mem_append.mp hu with h1 | h1
    · exact Nat.lt_succ_of_lt (hb u h1)
    · have : u = { id := st.nextUploadId, image := image, timestamp := now, retryCount := 0 } := by
        simpa using h1
      rw [this]
      exact Nat.lt_succ_self _
  · show ((st.pendingUploads ++ [_]).map PendingUpload.id).Nodup
    rw [List.map_append]
    simp only [List.map_cons, List.map_nil]
    rw [List.nodup_append]
    refine ⟨hn, by simp, ?_⟩
    intro i hi hi2
    have : i = st.nextUploadId := by simpa using hi2
    obtain ⟨u, hu, hui⟩ := List.mem_map.mp hi
    have := hb u hu
    omega

theorem enqueueAll_QInv :
    ∀ (items : List (String × Int)) (st : StoreState), QInv st → QInv (enqueueAll items st)
  | [], _, h => h
  | it :: items, st, h =>
    enqueueAll_QInv items (queueForUpload it.1 it.2 st) (queueForUpload_QInv it.1 it.2 h)

theorem syncStep_isSyncing (outcome : Nat → Option Count) (st : StoreState)
    (u : PendingUpload) : (syncStep outcome st u).isSyncing = st.isSyncing := by
  unfold syncStep
  cases outcome u.id <;> rfl

theorem foldl_syncStep_isSyncing (outcome : Nat → Option Count) :
    ∀ (l : List PendingUpload) (st : StoreState),
      (l.foldl (syncStep outcome) st).isSyncing = st.isSyncing
  | [], _ => rfl
  | u :: l, st => by
    rw [List.foldl_cons, foldl_syncStep_isSyncing outcome l _, syncStep_isSyncing]

theorem syncStep_connection (outcome : Nat → Option Count) (st : StoreState)
    (u : PendingUpload) : (syncStep outcome st u).connection = st.connection := by
  unfold syncStep
  cases outcome u.id <;> rfl

theorem foldl_syncStep_connection (outcome : Nat → Option Count) :
    ∀ (l : List PendingUpload) (st : StoreState),
      (l.foldl (syncStep outcome) st).connection = st.connection
  | [], _ => rfl
  | u :: l, st => by
    rw [List.foldl_cons, foldl_syncStep_connection outcome l _, syncStep_connection]

theorem sync_connection (outcome : Nat → Option Count) (st : StoreState) :
    (syncPendingUploads outcome st).connection = st.connection := by
  unfold syncPendingUploads
  split
  · rfl
  · exact foldl_syncStep_connection outcome st.pendingUploads { st with isSyncing := true }

theorem sync_guard_syncing {outcome : Nat → Option Count} {st : StoreState}
    (h : st.isSyncing = true) : syncPendingUploads outcome st = st := by
  unfold syncPendingUploads
  rw [if_pos (Or.inr (Or.inr (Or.inr h)))]

/-- The heart of C2: folding the per-item handlers over a snapshot with
distinct ids turns the queue `pre ++ rest` into `pre` followed by the residue
of `rest` (`pre` holds the already-bumped failures of a processed prefix). -/
theorem sync_fold_queue (outcome : Nat → Option Count) :
    ∀ (rest pre : List PendingUpload) (st : StoreState),
      st.pendingUploads = pre ++ rest →
      (∀ p ∈ pre, ∀ u ∈ rest, p.id ≠ u.id) →
      (rest.map PendingUpload.id).Nodup →
      (rest.foldl (syncStep outcome) st).pendingUploads =
        pre ++ syncResidue outcome rest
  | [], pre, st, h, _, _ => by simpa [syncResidue] using h
  | u :: rest, pre, st, h, hdis, hnd => by
    rw [List.foldl_cons]
    have hnd2 : (rest.map PendingUpload.id).Nodup :=
      (List.nodup_cons.mp (by simpa using hnd)).2
    have hu_not : u.id ∉ rest.map PendingUpload.id :=
      (List.nodup_cons.mp (by simpa using hnd)).1
    have hrest_ne : ∀ v ∈ rest, v.id ≠ u.id := by
      intro v hv hvid
      exact hu_not (hvid ▸ List.mem_map_of_mem PendingUpload.id hv)
    cases hout : outcome u.id with
    | some c =>
      have hq : (syncStep outcome st u).pendingUploads = pre ++ rest := by
        simp only [syncStep, hout, removePendingUpload, addCount]
        rw [h, List.filter_append, List.filter_cons]
        have hpre : pre.filter (fun p => decide (p.id ≠ u.id)) = pre := by
          apply List.filter_eq_self.mpr
          intro p hp
          exact decide_eq_true (hdis p hp u (List.mem_cons_self u rest))
        have hrest : rest.filter (fun p => decide (p.id ≠ u.id)) = rest := by
          apply List.filter_eq_self.mpr
          intro v hv
          exact decide_eq_true (hrest_ne v hv)
        rw [if_neg (by simp), hpre, hrest]
      have hih := sync_fold_queue outcome rest pre (syncStep outcome st u) hq
        (fun p hp v hv => hdis p hp v (List.mem_cons_of_mem _ hv)) hnd2
      rw [hih]
      simp [syncResidue, List.filterMap_cons, hout]
    | none =>
      have hq : (syncStep outcome st u).pendingUploads =
          (pre ++ [{ u with retryCount := u.retryCount + 1 }]) ++ rest := by
        simp only [syncStep, hout]
        rw [h, List.map_append, List.map_cons]
        have hpre : pre.map (fun p =>
            if p.id = u.id then { p with retryCount := p.retryCount + 1 } else p) = pre := by
          have heach : ∀ p ∈ pre, (if p.id = u.id
              then { p with retryCount := p.retryCount + 1 } else p) = p := by
            intro p hp
            rw [if_neg (hdis p hp u (List.mem_cons_self u rest))]
          rw [List.map_congr_left heach]
          simp
        have hrest : rest.map (fun p =>
            if p.id = u.id then { p with retryCount := p.retryCount + 1 } else p) = rest := by
          have heach : ∀ v ∈ rest, (if v.id = u.id
              then { v with retryCount := v.retryCount + 1 } else v) = v := by
            intro v hv
            rw [if_neg (hrest_ne v hv)]
          rw [List.map_congr_left heach]
          simp
        rw [hpre, hrest, if_pos rfl, List.append_assoc]
        rfl
      have hdis2 : ∀ p ∈ pre ++ [{ u with retryCount := u.retryCount + 1 }],
          ∀ v ∈ rest, p.id ≠ v.id := by
        intro p hp v hv
        rcases List.mem_append.mp hp with h1 | h1
        · exact hdis p h1 v (List.mem_cons_of_mem _ hv)
        · have hp2 : p = { u with retryCount := u.retryCount + 1 } := by simpa using h1
          rw [hp2]
          exact fun heq => (hrest_ne v hv) heq.symm
      have hih := sync_fold_queue outcome rest
        (pre ++ [{ u with retryCount := u.retryCount + 1 }]) (syncStep outcome st u)
        hq hdis2 hnd2
      rw [hih, List.append_assoc]
      simp [syncResidue, List.filterMap_cons, hout]

theorem syncResidue_length (outcome : Nat → Option Count) :
    ∀ q : List PendingUpload,
      (syncResidue outcome q).length =
        q.length - q.countP (fun u => (outcome u.id).isSome)
  | [] => rfl
  | u :: q => by
    have ih := syncResidue_length outcome q
    have hle := @List.countP_le_length PendingUpload (fun v => (outcome v.id).isSome) q
    by_cases h : (outcome u.id).isSome = true
    · have hstep : syncResidue outcome (u :: q) = syncResidue outcome q := by
        unfold syncResidue
        rw [List.filterMap_cons, if_pos h]
      rw [hstep, ih]
      simp [List.length_cons, List.countP_cons, h]
    · have hstep : syncResidue outcome (u :: q) =
          { u with retryCount := u.retryCount + 1 } :: syncResidue outcome q := by
        unfold syncResidue
        rw [List.filterMap_cons, if_neg h]
      rw [hstep]
      simp [List.length_cons, List.countP_cons, h, ih]
      omega

theorem mem_syncResidue {outcome : Nat → Option Count} {q : List PendingUpload}
    {p : PendingUpload} :
    p ∈ syncResidue outcome q ↔
      ∃ u ∈ q, (outcome u.id).isSome = false ∧
        p = { u with retryCount := u.retryCount + 1 } := by
  unfold syncResidue
  rw [List.mem_filterMap]
  constructor
  · rintro ⟨u, hu, hf⟩
    by_cases h : (outcome u.id).isSome = true
    · rw [if_pos h] at hf
      cases hf
    · rw [if_neg h] at hf
      exact ⟨u, hu, by simpa using h, (Option.some_inj.mp hf).symm⟩
  · rintro ⟨u, hu, h, rfl⟩
    exact ⟨u, hu, by rw [if_neg (by simp [h])]⟩

/-- C2. For a queue built by enqueuing `items` (length `N`) from the initial
state, one sync pass in which exactly `K` per-item analyze requests succeed
(`K` = the number of queued items whose `outcome` is a success) leaves
`N − K` items: every succeeded item is gone, every failed item remains with
its `retryCount` incremented by exactly one (hence at least one), and the
`retryCount` of every remaining item is at least what it was before the pass. -/
theorem queue_conservation (items : List (String × Int)) (outcome : Nat → Option Count) :
    (builtQueue items).length = items.length ∧
    (syncedQueue items outcome).length =
      items.length - (builtQueue items).countP (fun u => (outcome u.id).isSome) ∧
    (∀ u ∈ builtQueue items, (outcome u.id).isSome = true →
      ∀ p ∈ syncedQueue items outcome, p.id ≠ u.id) ∧
    (∀ u ∈ builtQueue items, outcome u.id = none →
      ∃ p ∈ syncedQueue items outcome,
        p.id = u.id ∧ p.retryCount = u.retryCount + 1) ∧
    (∀ p ∈ syncedQueue items outcome, ∃ u ∈ builtQueue items,
      p.id = u.id ∧ u.retryCount ≤ p.retryCount) := by
  have hlen : (builtQueue items).length = items.length := by
    have h := enqueueAll_length items initialState
    simpa [builtQueue, initialState] using h
  have hnd : ((builtQueue items).map PendingUpload.id).Nodup :=
    (enqueueAll_QInv items initialState ⟨by simp [initialState], by simp [initialState]⟩).2
  have hsq : syncedQueue items outcome = syncResidue outcome (builtQueue items) := by
    by_cases hq : (enqueueAll items initialState).pendingUploads = []
    · unfold syncedQueue syncPendingUploads
      rw [if_pos (Or.inr (Or.inr (Or.inl hq)))]
      rw [show builtQueue items = (enqueueAll items initialState).pendingUploads from rfl, hq]
      rfl
    · unfold syncedQueue syncPendingUploads
      have hcon := enqueueAll_connection items initialState
      have hsync := enqueueAll_isSyncing items initialState
      rw [if_neg ?_]
      · exact sync_fold_queue outcome (builtQueue items) []
          { enqueueAll items initialState with isSyncing := true }
          (by simp [builtQueue]) (by simp) hnd
      · push_neg
        refine ⟨?_, ?_, hq, ?_⟩
        · rw [hcon]
          simp [initialState]
        · rw [hcon]
          simp [initialState]
        · rw [hsync]
          simp [initialState]
  refine ⟨hlen, ?_, ?_, ?_, ?_⟩
  · rw [hsq, syncResidue_length, hlen]
  · intro u hu hsome p hp heq
    rw [hsq] at hp
    obtain ⟨v, hv, hvfail, rfl⟩ := mem_syncResidue.mp hp
    have : v = u := List.inj_on_of_nodup_map hnd hv hu heq
    rw [this] at hvfail
    rw [hsome] at hvfail
    cases hvfail
  · intro u hu hnone
    refine ⟨{ u with retryCount := u.retryCount + 1 }, ?_, rfl, rfl⟩
    rw [hsq]
    exact mem_syncResidue.mpr ⟨u, hu, by simp [hnone], rfl⟩
  · intro p hp
    rw [hsq] at hp
    obtain ⟨v, hv, _, rfl⟩ := mem_syncResidue.mp hp
    exact ⟨v, hv, rfl, by simp⟩

/-- Witness for C2: two enqueued images, the first succeeds, the second fails;
one item remains, the succeeded id 0 is gone, the failed id 1 has retry 1. -/
theorem queue_conservation_check :
    (syncedQueue items2 outcome0).length = 1 ∧
    (∀ p ∈ syncedQueue items2 outcome0, p.id ≠ 0) ∧
    (∃ p ∈ syncedQueue items2 outcome0, p.id = 1 ∧ p.retryCount = 0 + 1) := by
  have h := queue_conservation items2 outcome0
  refine ⟨?_, ?_, ?_⟩
  · rw [h.2.1]
    decide
  · intro p hp
    exact h.2.2.1 { id := 0, image := "imgA", timestamp := 0, retryCount := 0 }
      (by decide) (by decide) p hp
  · exact h.2.2.2.1 { id := 1, image := "imgB", timestamp := 1, retryCount := 0 }
      (by decide) (by decide)

/-- C7. Sync is non-reentrant: in any state reached mid-pass (the `isSyncing`
flag set, any prefix of per-item handlers applied) a further trigger returns
the state unchanged — no record, queue entry, or `retryCount` is touched —
and a pass entered with the flag clear leaves it clear on completion. -/
theorem sync_non_reentrant (outcome outcome2 : Nat → Option Count) (st : StoreState)
    (pre : List PendingUpload) :
    syncPendingUploads outcome2 (pre.foldl (syncStep outcome) { st with isSyncing := true }) =
      pre.foldl (syncStep outcome) { st with isSyncing := true } ∧
    (st.isSyncing = false → (syncPendingUploads outcome st).isSyncing = false) := by
  constructor
  · apply sync_guard_syncing
    rw [foldl_syncStep_isSyncing]
  · intro h
    unfold syncPendingUploads
    split
    · exact h
    · rfl

/-- Witness for C7 at the initial state (empty processed prefix). -/
theorem sync_non_reentrant_check :
    syncPendingUploads outFail { initialState with isSyncing := true } =
      { initialState with isSyncing := true } ∧
    (syncPendingUploads outFail initialState).isSyncing = false := by
  have h := sync_non_reentrant outFail outFail initialState []
  exact ⟨h.1, h.2 rfl⟩

/-! ## The connectivity prober: safety of the connection signal -/

theorem setOnline_false_conn (outcome : Nat → Option Count) (probe : ProbeResult)
    (st : StoreState) :
    (setOnline outcome false probe st).connection =
      { st.connection with isOnline := false, isDatabaseConnected := false } :=
  rfl

theorem setOnline_netFail_conn (outcome : Nat → Option Count) (msg : String)
    (st : StoreState) :
    (setOnline outcome true (ProbeResult.netFail msg) st).connection =
      { st.connection with isOnline := false, isDatabaseConnected := false,
                           lastError := some msg } :=
  rfl

theorem setOnline_badBody_conn (outcome : Nat → Option Count) (b : Bool) (msg : String)
    (st : StoreState) :
    (setOnline outcome true (ProbeResult.badBody b msg) st).connection =
      { st.connection with isOnline := false, isDatabaseConnected := false,
                           lastError := some msg } :=
  rfl

theorem setOnline_response_conn (outcome : Nat → Option Count) (ok : Bool)
    (database : String) (err : Option String) (st : StoreState) :
    (setOnline outcome true (ProbeResult.response ok database err) st).connection =
      connAfterResponse st.connection ok database err := by
  unfold setOnline setOnlineE healthTry
  rw [if_pos rfl]
  dsimp only
  by_cases hc : ok = true ∧ database = "connected" ∧ st.pendingUploads ≠ []
  · rw [if_pos hc]
    exact sync_connection outcome _
  · rw [if_neg hc]

/-- C4. In every reachable state of the store — under any response the
health endpoint of the repository can produce, any unparsable body, timeout, or
network failure — `isDatabaseConnected` is never `true` while `isOnline` is
`false`. -/
theorem connection_invariant (st : StoreState) (h : Reachable st) :
    st.connection.isDatabaseConnected = true → st.connection.isOnline = true := by
  induction h with
  | init => intro _; rfl
  | stepAddCount c _ ih => exact ih
  | stepUpdateCount i u _ ih => exact ih
  | stepDeleteCounts ids _ ih => exact ih
  | stepQueueForUpload image now _ ih => exact ih
  | stepRemovePendingUpload i _ ih => exact ih
  | stepClearCounts _ ih => exact ih
  | stepImportCounts l _ ih => exact ih
  | stepSync outcome _ ih =>
    rw [sync_connection]
    exact ih
  | stepSetOnline outcome status probe hr hp ih =>
    cases status with
    | false =>
      intro habs
      rw [setOnline_false_conn] at habs
      simp at habs
    | true =>
      cases probe with
      | netFail msg =>
        intro habs
        rw [setOnline_netFail_conn] at habs
        simp at habs
      | badBody b msg =>
        intro habs
        rw [setOnline_badBody_conn] at habs
        simp at habs
      | response ok database err =>
        rw [setOnline_response_conn]
        rcases hp with ⟨hok, hdb, _⟩ | ⟨hok, hdb, _⟩
        · subst hok
          subst hdb
          intro _
          rfl
        · subst hok
          subst hdb
          intro habs
          simp [connAfterResponse] at habs

/-- Witness for C4 at the (reachable) initial state. -/
theorem connection_invariant_check : initialState.connection.isOnline = true :=
  connection_invariant initialState Reachable.init rfl

/-- C9. `setOnline` never throws or rejects (`setOnlineE` is always `ok`), and
on every failure mode of the probe against the endpoint of the repository —
network failure/timeout, unparsable body, or its non-OK response — the
connection state collapses to `isOnline = false`, `isDatabaseConnected =
false`, with `lastError` holding a diagnostic string. -/
theorem setOnline_never_throws (outcome : Nat → Option Count) (status : Bool)
    (probe : ProbeResult) (st : StoreState) :
    (∃ st2, setOnlineE outcome status probe st = Except.ok st2) ∧
    (failureProbe probe →
      (setOnline outcome true probe st).connection.isOnline = false ∧
      (setOnline outcome true probe st).connection.isDatabaseConnected = false ∧
      ∃ m, (setOnline outcome true probe st).connection.lastError = some m) := by
  constructor
  · cases status with
    | false => exact ⟨_, rfl⟩
    | true =>
      cases probe with
      | netFail msg => exact ⟨_, rfl⟩
      | badBody b msg => exact ⟨_, rfl⟩
      | response ok database err =>
        unfold setOnlineE healthTry
        rw [if_pos rfl]
        dsimp only
        by_cases hc : ok = true ∧ database = "connected" ∧ st.pendingUploads ≠ []
        · rw [if_pos hc]
          exact ⟨_, rfl⟩
        · rw [if_neg hc]
          exact ⟨_, rfl⟩
  · intro hf
    cases probe with
    | netFail msg =>
      rw [setOnline_netFail_conn]
      exact ⟨rfl, rfl, msg, rfl⟩
    | badBody b msg =>
      rw [setOnline_badBody_conn]
      exact ⟨rfl, rfl, msg, rfl⟩
    | response ok database err =>
      obtain ⟨m, hm⟩ := hf
      rw [show healthResponse false m = ProbeResult.response false "disconnected" (some m)
        from rfl] at hm
      injection hm with h1 h2 h3
      subst h1
      subst h2
      subst h3
      rw [setOnline_response_conn]
      refine ⟨rfl, by simp [connAfterResponse], m, ?_⟩
      simp [connAfterResponse]

/-- Witness for C9 at a concrete network failure. -/
theorem setOnline_never_throws_check :
    (setOnline outFail true probeFail initialState).connection.isOnline = false ∧
    (setOnline outFail true probeFail initialState).connection.isDatabaseConnected = false ∧
    ∃ m, (setOnline outFail true probeFail initialState).connection.lastError = some m :=
  (setOnline_never_throws outFail true probeFail initialState).2 trivial

/-! ## The achievement engine: idempotent grants -/

theorem checkStep_fst_grows (stats : UserStats) (achieved : List Nat) :
    ∀ (l : List Achievement) (acc : List Nat × List Achievement),
      ∃ t, (l.foldl (checkStep stats achieved) acc).1 = acc.1 ++ t
  | [], acc => ⟨[], (List.append_nil acc.1).symm⟩
  | a :: l, acc => by
    rw [List.foldl_cons]
    by_cases h1 : a.id ∈ achieved
    · have hstep : checkStep stats achieved acc a = acc := by
        unfold checkStep
        rw [if_pos h1]
      rw [hstep]
      exact checkStep_fst_grows stats achieved l acc
    · by_cases h2 : earnedBy stats a = true
      · have hstep : (checkStep stats achieved acc a).1 = acc.1 ++ [a.id] := by
          unfold checkStep
          rw [if_neg h1, if_pos h2]
        obtain ⟨t, ht⟩ := checkStep_fst_grows stats achieved l (checkStep stats achieved acc a)
        exact ⟨[a.id] ++ t, by rw [ht, hstep, List.append_assoc]⟩
      · have hstep : checkStep stats achieved acc a = acc := by
          unfold checkStep
          rw [if_neg h1, if_neg h2]
        rw [hstep]
        exact checkStep_fst_grows stats achieved l acc

theorem earned_mem_inserted (stats : UserStats) (achieved : List Nat) :
    ∀ (l : List Achievement) (acc : List Nat × List Achievement) (a : Achievement),
      a ∈ l → a.id ∉ achieved → earnedBy stats a = true →
      a.id ∈ (l.foldl (checkStep stats achieved) acc).1
  | [], _, a, hmem, _, _ => absurd hmem (List.not_mem_nil a)
  | b :: l, acc, a, hmem, hna, hearn => by
    rw [List.foldl_cons]
    rcases List.mem_cons.mp hmem with rfl | hmem2
    · have hstep : (checkStep stats achieved acc a).1 = acc.1 ++ [a.id] := by
        unfold checkStep
        rw [if_neg hna, if_pos hearn]
      obtain ⟨t, ht⟩ := checkStep_fst_grows stats achieved l (checkStep stats achieved acc a)
      rw [ht, hstep]
      simp
    · exact earned_mem_inserted stats achieved l _ a hmem2 hna hearn

theorem checkStep_skip_all (stats : UserStats) (achieved2 : List Nat) :
    ∀ (l : List Achievement),
      (∀ a ∈ l, a.id ∈ achieved2 ∨ earnedBy stats a = false) →
      ∀ acc, l.foldl (checkStep stats achieved2) acc = acc
  | [], _, _ => rfl
  | a :: l, h, acc => by
    rw [List.foldl_cons]
    have hstep : checkStep stats achieved2 acc a = acc := by
      unfold checkStep
      rcases h a (List.mem_cons_self a l) with h1 | h1
      · rw [if_pos h1]
      · by_cases h2 : a.id ∈ achieved2
        · rw [if_pos h2]
        · rw [if_neg h2, if_neg (by simp [h1])]
    rw [hstep]
    exact checkStep_skip_all stats achieved2 l
      (fun b hb => h b (List.mem_cons_of_mem _ hb)) acc

/-- C5. `checkAchievements` is idempotent over an unchanged statistics
snapshot: a second run against the earned set left by the first run (the old
earned ids plus everything the first run inserted) inserts no row and returns
an empty `newAchievements` list. -/
theorem checkAchievements_idempotent (stats : UserStats)
    (allAchievements : List Achievement) (achieved : List Nat) :
    checkAchievements stats allAchievements
      (achieved ++ (checkAchievements stats allAchievements achieved).1) = ([], []) := by
  apply checkStep_skip_all
  intro a ha
  by_cases h1 : a.id ∈ achieved
  · exact Or.inl (List.mem_append.mpr (Or.inl h1))
  · by_cases h2 : earnedBy stats a = true
    · refine Or.inl (List.mem_append.mpr (Or.inr ?_))
      exact earned_mem_inserted stats achieved allAchievements ([], []) a ha h1 h2
    · exact Or.inr (by simpa using h2)

/-! ## The server-side delete: scoped to the authenticated user -/

/-- C6. `DELETE /api/counts` for authenticated user `a` with any id set
removes exactly the rows owned by `a` whose id is listed: a row survives iff
it was present and is not both owned by `a` and listed — so every row of any
other user survives even when its id is listed — and the request completes
with the success status, never an error. -/
theorem deleteCounts_scoped (a : Nat) (ids : List Nat) (rows : List CountRow) :
    (∀ r : CountRow, r ∈ (deleteCountsRoute a ids rows).1 ↔
        r ∈ rows ∧ ¬(r.userId = a ∧ r.id ∈ ids)) ∧
    (deleteCountsRoute a ids rows).2 = DeleteResult.okStatus := by
  refine ⟨?_, rfl⟩
  intro r
  simp only [deleteCountsRoute, deleteCountsDb, List.mem_filter, decide_eq_true_eq]

/-- Witness for C6: user 1 deletes ids 5 and 7; the row of user 2 with id 7
survives, the row of user 1 with id 5 is removed. -/
theorem deleteCounts_scoped_check :
    rowB7 ∈ (deleteCountsRoute 1 [5, 7] [rowA5, rowB7]).1 ∧
    rowA5 ∉ (deleteCountsRoute 1 [5, 7] [rowA5, rowB7]).1 := by
  have h := deleteCounts_scoped 1 [5, 7] [rowA5, rowB7]
  constructor
  · exact (h.1 rowB7).mpr ⟨by decide, by decide⟩
  · intro hmem
    exact ((h.1 rowA5).mp hmem).2 (by decide)

/-! ## The analyze endpoint: the guest branch persists nothing -/

/-- C8. A guest (unauthenticated) `POST /api/analyze` whose image analysis
passes validation persists nothing server-side — no counts row, no
user-achievement row, and no achievement evaluation effect — and the returned
record carries `userId = 0` and the model-derived (augmented) labels with
`"guest-mode"` appended. -/
theorem analyze_guest_not_persisted (image : String) (r : AnalysisResult)
    (freshId : Nat) (guestId : CId) (now : Int) (stats : UserStats)
    (allAchievements : List Achievement) (achieved : List Nat) :
    (analyzeHandler none image (some r) freshId guestId now stats
        allAchievements achieved).1 = [] ∧
    ∃ body,
      (analyzeHandler none image (some r) freshId guestId now stats
          allAchievements achieved).2 = AnalyzeResponse.ok body ∧
      body.count.userId = 0 ∧
      body.count.labels = some (augmentLabels r ++ ["guest-mode"]) ∧
      body.newAchievements = none :=
  ⟨rfl, _, rfl, rfl, rfl, rfl⟩

/-! ## The id-comparison mismatch between `updateCount` and `deleteCounts` -/

/-- C10. The two store operations disagree on id equality: `updateCount`
compares stringified ids, so the string form of a numeric id updates the
numeric-id record (and vice versa); `deleteCounts` uses strict membership, so
the string form of a numeric id never removes the numeric-id record (and vice
versa). -/
theorem id_comparison_mismatch (n : Nat) (u : CountUpdates) (counts : List Count) :
    (∀ c ∈ counts, c.id = CId.num n →
        applyUpdates c u ∈ updateCountList (CId.str (toString n)) u counts) ∧
    (∀ c ∈ counts, c.id = CId.num n →
        c ∈ deleteCountsList [CId.str (toString n)] counts) ∧
    (∀ c ∈ counts, c.id = CId.str (toString n) →
        applyUpdates c u ∈ updateCountList (CId.num n) u counts) ∧
    (∀ c ∈ counts, c.id = CId.str (toString n) →
        c ∈ deleteCountsList [CId.num n] counts) := by
  refine ⟨?_, ?_, ?_, ?_⟩
  · intro c hc hid
    unfold updateCountList
    have heq : (if c.id.toStr = (CId.str (toString n)).toStr
        then applyUpdates c u else c) = applyUpdates c u := by
      rw [if_pos (by rw [hid]; rfl)]
    exact heq ▸ List.mem_map_of_mem _ hc
  · intro c hc hid
    unfold deleteCountsList
    rw [List.mem_filter]
    refine ⟨hc, ?_⟩
    rw [hid]
    simp
  · intro c hc hid
    unfold updateCountList
    have heq : (if c.id.toStr = (CId.num n).toStr
        then applyUpdates c u else c) = applyUpdates c u := by
      rw [if_pos (by rw [hid]; rfl)]
    exact heq ▸ List.mem_map_of_mem _ hc
  · intro c hc hid
    unfold deleteCountsList
    rw [List.mem_filter]
    refine ⟨hc, ?_⟩
    rw [hid]
    simp

/-- Witness for C10: the record with numeric id 5 is updated by
`updateCount("5", …)` but survives `deleteCounts(["5"])`. -/
theorem id_comparison_mismatch_check :
    applyUpdates recN5 upd0 ∈ updateCountList (CId.str (toString 5)) upd0 [recN5] ∧
    recN5 ∈ deleteCountsList [CId.str (toString 5)] [recN5] := by
  have h := id_comparison_mismatch 5 upd0 [recN5]
  exact ⟨h.1 recN5 (by decide) rfl, h.2.1 recN5 (by decide) rfl⟩

end FlockControl
